import Mathlib

/-! Saka (Indian national) calendar conversion of `kcalendarsystemindic.cpp`.

A shallow embedding of the conversion core of
`kde/kdelibs/kdecore/date/kcalendarsystemindic.cpp`:

* `KCalendarSystemSaka::getMonthLength`, `gregorianToJD`, `SakaToJD`;
* `KCalendarSystemIndic::year`, `month`, `day`;
* `KCalendarSystemIndic::latestValidDate`, `isValid`, `dateToJulianDay`,
  `setDate`, `setYMD`, `addYears`.

C++ `int` values are embedded as `Int`; the `double` Julian day values of the
source only ever hold whole numbers (sums and differences of integers), so they
are embedded as `Int` too.  C++ `/` and `%` on `int` truncate towards zero and
are embedded as `Int.tdiv` and `Int.tmod`.  Arithmetic overflow of `int` is
outside the model: every statement ranges over all of `Int`, which agrees with
the source on every input whose intermediate values fit the machine type.

The file calls `QDate` (Qt) and the `KCalendarSystem` base class, neither of
which is part of the source file.  They are modelled from the specification,
which describes them as a Gregorian/Julian-Day utility of the proleptic
Gregorian calendar.
-/

/-! ## The Gregorian / Julian-Day utility (`QDate`) -/

/-- Modelled from the spec: the value type `QDate` is not defined in the source
file; the specification treats it as a Gregorian date `(year, month, day)` of
the proleptic Gregorian calendar, equivalently a Julian Day Number. -/
structure QDate where
  /-- Gregorian year, as returned by `QDate::year()`. -/
  year : Int
  /-- Gregorian month `1..12`, as returned by `QDate::month()`. -/
  month : Int
  /-- Gregorian day of the month, as returned by `QDate::day()`. -/
  day : Int
  deriving DecidableEq

namespace QDate

/-- Modelled from the spec: `QDate::isLeapYear` is not in the source file; the
specification's "is Gregorian year Y a leap year?" of the proleptic Gregorian
calendar: divisible by 4 and not by 100, or divisible by 400. -/
def isLeapYear (y : Int) : Bool :=
  (y % 4 == 0 && y % 100 != 0) || y % 400 == 0

/-- Modelled from the spec: number of days of Gregorian month `m` of year `y`
(the Gregorian utility's month table, which is not in the source file). -/
def daysInMonth (y m : Int) : Int :=
  if m = 2 then (if isLeapYear y then 29 else 28)
  else if m = 4 ∨ m = 6 ∨ m = 9 ∨ m = 11 then 30
  else 31

/-- Modelled from the spec: `QDate::isValid` is not in the source file; a
"valid Gregorian date" has its month in `1..12` and its day within the month. -/
def isValid (date : QDate) : Prop :=
  1 ≤ date.month ∧ date.month ≤ 12 ∧ 1 ≤ date.day ∧
    date.day ≤ daysInMonth date.year date.month

instance (date : QDate) : Decidable (isValid date) := by
  unfold isValid; infer_instance

/-- Modelled from the spec: `julianDayOf(year, month, day)`, the Julian Day
Number of a date of the proleptic Gregorian calendar (`QDate::toJulianDay`,
which is not in the source file), by the usual civil-date formula with the
year counted from March. -/
def julianDayOf (y m d : Int) : Int :=
  let a := (14 - m) / 12
  let yy := y + 4800 - a
  let mm := m + 12 * a - 3
  d + (153 * mm + 2) / 5 + 365 * yy + yy / 4 - yy / 100 + yy / 400 - 32045

/-- Modelled from the spec: `QDate::toJulianDay` of a date. -/
def toJulianDay (date : QDate) : Int :=
  julianDayOf date.year date.month date.day

/-- Modelled from the spec: `dateFromJulianDay(jd)`, the proleptic Gregorian
date of a Julian Day Number (`QDate::fromJulianDay`, which is not in the
source file), the inverse of `julianDayOf`. -/
def fromJulianDay (jd : Int) : QDate :=
  let a := jd + 32044
  let b := (4 * a + 3) / 146097
  let c := a - (146097 * b) / 4
  let d := (4 * c + 3) / 1461
  let e := c - (1461 * d) / 4
  let m := (5 * e + 2) / 153
  { year := 100 * b + d - 4800 + m / 10
    month := m + 3 - 12 * (m / 10)
    day := e - (153 * m + 2) / 5 + 1 }

/-- Modelled from the spec: `QDate::setDate(year, month, day)` is not in the
source file; the Gregorian utility's date construction, which yields the date
for a valid Gregorian triple and fails (`none`, the C++ `false`) otherwise. -/
def setDate (y m d : Int) : Option QDate :=
  if isValid { year := y, month := m, day := d } then
    some { year := y, month := m, day := d }
  else none

end QDate

/-! ## The `KCalendarSystem` base class -/

namespace KCalendarSystem

/-- Modelled from the spec: the base class `KCalendarSystem::year(date)` is not
in the source file; the specification's step `sakaYear = gregorianYear -
eraStart` takes it to be the Gregorian year of the date. -/
def year (date : QDate) : Int := date.year

/-- Modelled from the spec: the base class `KCalendarSystem::isLeapYear(int)`
is not in the source file; the specification's `isLeapYear(gregorianYear)`, the
Gregorian leap year rule. -/
def isLeapYear (y : Int) : Bool := QDate.isLeapYear y

/-- Modelled from the spec: the base class `KCalendarSystem::setDate(date,
year, month, day)` is not in the source file; the generic calendar framework's
date construction, which rejects a triple the calendar's own `isValid` refuses
and otherwise takes the Julian day from the calendar's own year/month/day to
Julian Day primitive `dateToJulianDay` and sets `date` to the date of that
Julian day.  The two virtual methods are passed as arguments; the result is the
returned `bool` and the value of `date` afterwards (unchanged on failure). -/
def setDate (isValid : Int → Int → Int → Bool)
    (dateToJulianDay : Int → Int → Int → Option Int)
    (date : QDate) (year month day : Int) : Bool × QDate :=
  if isValid year month day then
    match dateToJulianDay year month day with
    | some jd => (true, QDate.fromJulianDay jd)
    | none => (false, date)
  else (false, date)

end KCalendarSystem

/-! ## `class KCalendarSystemSaka` -/

namespace KCalendarSystemSaka

/-- The constant `SAKA_ERA_START = 78`. -/
def SAKA_ERA_START : Int := 78

/-- The constant `SAKA_YEAR_START = 80`. -/
def SAKA_YEAR_START : Int := 80

/-- The accessor `get_era_start()`. -/
def get_era_start : Int := SAKA_ERA_START

/-- The accessor `get_year_start()`. -/
def get_year_start : Int := SAKA_YEAR_START

/-- The function `KCalendarSystemSaka::getMonthLength(greg_year, month)`: an
out-of-range `month` is first folded with the C++ operators `/` and `%`
(truncating), then month 0 of a leap year and months 1..5 have 31 days and
every other month 30. -/
def getMonthLength (greg_year month : Int) : Int :=
  let greg_year1 :=
    if month < 0 ∨ month > 11 then greg_year + Int.tdiv month 12 else greg_year
  let month1 := if month < 0 ∨ month > 11 then Int.tmod month 12 else month
  if QDate.isLeapYear (greg_year1 + get_era_start) && month1 == 0 then 31
  else if month1 ≥ 1 ∧ month1 ≤ 5 then 31
  else 30

/-- The function `KCalendarSystemSaka::gregorianToJD(year, month, date)`:
builds the `QDate` and returns its Julian day. -/
def gregorianToJD (year month date : Int) : Int :=
  QDate.toJulianDay { year := year, month := month, day := date }

/-- The function `KCalendarSystemSaka::SakaToJD(year, month, date)`. -/
def SakaToJD (year month date : Int) : Int :=
  let gyear := year + get_era_start
  let leapMonth : Int := if QDate.isLeapYear gyear then 31 else 30
  let start : Int :=
    if QDate.isLeapYear gyear then gregorianToJD gyear 3 21
    else gregorianToJD gyear 3 22
  if month = 1 then
    start + (date - 1)
  else
    let jd0 := start + leapMonth
    let m0 := month - 2
    let m1 := if m0 < 5 then m0 else 5
    let jd1 := jd0 + m1 * 31
    let jd2 := if month ≥ 8 then jd1 + (month - 7) * 30 else jd1
    jd2 + (date - 1)

end KCalendarSystemSaka

/-! ## `class KCalendarSystemIndic` -/

namespace KCalendarSystemIndic

open KCalendarSystemSaka

/-- The method `KCalendarSystemIndic::year(date)`: the base class year minus
the era start. -/
def year (date : QDate) : Int :=
  KCalendarSystem.year date - get_era_start

/-- The method `KCalendarSystemIndic::month(date)`.  The local `sakaYear` of
the source is assigned and never read, so it does not appear; `floor(mday / 31)`
is the integer (truncating) quotient, already whole before `floor`. -/
def month (date : QDate) : Int :=
  let jdAtStartOfGregYear := gregorianToJD date.year 1 1
  let julianDay := gregorianToJD date.year date.month date.day
  let yday := julianDay - jdAtStartOfGregYear
  let leapMonth : Int :=
    if yday < get_year_start then
      (if KCalendarSystem.isLeapYear (date.year - 1) then 31 else 30)
    else
      (if KCalendarSystem.isLeapYear date.year then 31 else 30)
  let yday1 :=
    if yday < get_year_start then yday + (leapMonth + (31 * 5) + (30 * 3) + 10)
    else yday - get_year_start
  let sakaMonth :=
    if yday1 < leapMonth then 0
    else
      let mday := yday1 - leapMonth
      if mday < 31 * 5 then Int.tdiv mday 31 + 1
      else Int.tdiv (mday - 31 * 5) 30 + 6
  if sakaMonth = 12 then 1 else sakaMonth + 1

/-- The method `KCalendarSystemIndic::day(date)`: the same computation as
`month`, returning `sakaDayOfMonth`. -/
def day (date : QDate) : Int :=
  let jdAtStartOfGregYear := gregorianToJD date.year 1 1
  let julianDay := gregorianToJD date.year date.month date.day
  let yday := julianDay - jdAtStartOfGregYear
  let leapMonth : Int :=
    if yday < get_year_start then
      (if KCalendarSystem.isLeapYear (date.year - 1) then 31 else 30)
    else
      (if KCalendarSystem.isLeapYear date.year then 31 else 30)
  let yday1 :=
    if yday < get_year_start then yday + (leapMonth + (31 * 5) + (30 * 3) + 10)
    else yday - get_year_start
  if yday1 < leapMonth then yday1 + 1
  else
    let mday := yday1 - leapMonth
    if mday < 31 * 5 then Int.tmod mday 31 + 1
    else Int.tmod (mday - 31 * 5) 30 + 1

/-- The value `yday` that `month()` and `day()` compute first: the zero-based
day number of the date within its Gregorian year,
`(int)(julianDay - jdAtStartOfGregYear)`. -/
def ydayOf (date : QDate) : Int :=
  gregorianToJD date.year date.month date.day - gregorianToJD date.year 1 1

/-- The local variable `sakaYear` of `month()` and `day()` as it stands after
the branch on `yday < get_year_start()` (`sakaYear -= 1` in the first branch);
the source computes it and returns nothing of it. -/
def sakaYearOf (date : QDate) : Int :=
  if ydayOf date < get_year_start then year date - 1 else year date

/-- The zero-based month index `sakaMonth` as `month()` holds it just before
the conversion to a one-based month (the `if (sakaMonth == 12)` statement):
the body of `month()` up to that statement. -/
def sakaMonthIndex (date : QDate) : Int :=
  let jdAtStartOfGregYear := gregorianToJD date.year 1 1
  let julianDay := gregorianToJD date.year date.month date.day
  let yday := julianDay - jdAtStartOfGregYear
  let leapMonth : Int :=
    if yday < get_year_start then
      (if KCalendarSystem.isLeapYear (date.year - 1) then 31 else 30)
    else
      (if KCalendarSystem.isLeapYear date.year then 31 else 30)
  let yday1 :=
    if yday < get_year_start then yday + (leapMonth + (31 * 5) + (30 * 3) + 10)
    else yday - get_year_start
  if yday1 < leapMonth then 0
  else
    let mday := yday1 - leapMonth
    if mday < 31 * 5 then Int.tdiv mday 31 + 1
    else Int.tdiv (mday - 31 * 5) 30 + 6

/-- The method `KCalendarSystemIndic::latestValidDate()`:
`QDate::fromJulianDay(5373484)`. -/
def latestValidDate : QDate := QDate.fromJulianDay 5373484

/-- The method `KCalendarSystemIndic::isValid(year, month, day)`: years above
9999 are refused, every other triple is handed to `QDate::isValid`. -/
def isValid (year month day : Int) : Bool :=
  if year ≤ 9999 then
    decide (QDate.isValid { year := year, month := month, day := day })
  else false

/-- The method `KCalendarSystemIndic::dateToJulianDay(year, month, day, jd)`:
`some jd` stands for the return value `true` with the output parameter set,
`none` for `false` (the output parameter is left alone). -/
def dateToJulianDay (year month day : Int) : Option Int :=
  match QDate.setDate year month day with
  | some date => some (QDate.toJulianDay date)
  | none => none

/-- The method `KCalendarSystemIndic::setDate(date, year, month, day)`: the
base class method, with this class's `isValid` and `dateToJulianDay`. -/
def setDate (date : QDate) (year month day : Int) : Bool × QDate :=
  KCalendarSystem.setDate isValid dateToJulianDay date year month day

/-- The method `KCalendarSystemIndic::setYMD(date, y, m, d)` (deprecated): the
base class `setDate` again. -/
def setYMD (date : QDate) (y m d : Int) : Bool × QDate :=
  KCalendarSystem.setDate isValid dateToJulianDay date y m d

/-- The method `KCalendarSystemIndic::addYears(date, nyears)`: `result` starts
as `date`, `setYMD` is called on it with the shifted year and the month and day
of `date`, its return value is dropped and `result` is returned. -/
def addYears (date : QDate) (nyears : Int) : QDate :=
  let y := year date + nyears
  (setYMD date y (month date) (day date)).2

end KCalendarSystemIndic

/-! ## Facts about the Gregorian utility -/

namespace QDate

/-- The leap year rule as a proposition on remainders. -/
theorem isLeapYear_iff (y : Int) :
    isLeapYear y = true ↔ (y % 4 = 0 ∧ y % 100 ≠ 0) ∨ y % 400 = 0 := by
  simp [isLeapYear]

/-- Julian day of 1 January, in closed form. -/
theorem julianDayOf_jan1 (y : Int) :
    julianDayOf y 1 1 =
      365 * (y + 4799) + (y + 4799) / 4 - (y + 4799) / 100 + (y + 4799) / 400
        - 31738 := by
  simp only [julianDayOf]
  norm_num
  omega

/-- Julian day of a day of March: 59 or 60 days after 1 January. -/
theorem julianDayOf_march (y d : Int) :
    julianDayOf y 3 d =
      julianDayOf y 1 1 + (if isLeapYear y then 60 else 59) + (d - 1) := by
  rw [julianDayOf_jan1]
  simp only [julianDayOf]
  norm_num
  by_cases h : isLeapYear y = true
  · rw [if_pos h]
    rw [isLeapYear_iff] at h
    omega
  · rw [if_neg h]
    rw [isLeapYear_iff] at h
    omega

/-- Consecutive Gregorian years: 1 January of the next year comes 365 or 366
days later. -/
theorem julianDayOf_next_year (y : Int) :
    julianDayOf (y + 1) 1 1 =
      julianDayOf y 1 1 + (if isLeapYear y then 366 else 365) := by
  rw [julianDayOf_jan1, julianDayOf_jan1]
  by_cases h : isLeapYear y = true
  · rw [if_pos h]
    rw [isLeapYear_iff] at h
    omega
  · rw [if_neg h]
    rw [isLeapYear_iff] at h
    omega

/-- The zero-based day number of a valid date within its year lies in
`0..364`, or `0..365` in a leap year. -/
theorem yday_bounds (date : QDate) (hv : isValid date) :
    0 ≤ julianDayOf date.year date.month date.day - julianDayOf date.year 1 1 ∧
      julianDayOf date.year date.month date.day - julianDayOf date.year 1 1
        ≤ (if isLeapYear date.year then 365 else 364) := by
  obtain ⟨y, m, d⟩ := date
  obtain ⟨h1, h2, h3, h4⟩ := hv
  simp only at h1 h2 h3 h4 ⊢
  rw [julianDayOf_jan1]
  simp only [julianDayOf]
  simp only [daysInMonth] at h4
  by_cases h : isLeapYear y = true
  · rw [if_pos h]
    simp only [h, if_true] at h4
    rw [isLeapYear_iff] at h
    interval_cases m <;> norm_num at h4 ⊢ <;> omega
  · rw [if_neg h]
    simp only [h] at h4
    rw [isLeapYear_iff] at h
    interval_cases m <;> norm_num at h4 ⊢ <;> omega

/-- Any Julian Day Number is the Julian day of the date `fromJulianDay` gives
for it. -/
theorem toJulianDay_fromJulianDay (jd : Int) :
    toJulianDay (fromJulianDay jd) = jd := by
  simp only [toJulianDay, fromJulianDay, julianDayOf]
  generalize hb : (4 * (jd + 32044) + 3) / 146097 = b
  generalize hc : jd + 32044 - 146097 * b / 4 = c
  have hc0 : 0 ≤ c ∧ c ≤ 36524 := by omega
  generalize hd : (4 * c + 3) / 1461 = d
  have hd0 : 0 ≤ d ∧ d ≤ 99 := by omega
  generalize he : c - 1461 * d / 4 = e
  have he0 : 0 ≤ e ∧ e ≤ 365 := by omega
  generalize hm : (5 * e + 2) / 153 = m
  have hm0 : 0 ≤ m ∧ m ≤ 11 := by omega
  have hjd : jd = e + 1461 * d / 4 + 146097 * b / 4 - 32044 := by omega
  have f1 : 146097 * b / 4 = 36524 * b + b / 4 := by omega
  have f2 : 1461 * d / 4 = 365 * d + d / 4 := by omega
  have f3 : (100 * b + d) / 4 = 25 * b + d / 4 := by omega
  have f4 : (100 * b + d) / 100 = b := by omega
  have f5 : (100 * b + d) / 400 = b / 4 := by omega
  by_cases h10 : m < 10
  · have q : m / 10 = 0 := by omega
    have a0 : (14 - (m + 3 - 12 * (m / 10))) / 12 = 0 := by omega
    have e1 : 100 * b + d - 4800 + 0 + 4800 - 0 = 100 * b + d := by omega
    have e2 : m + 3 - 12 * 0 + 12 * 0 - 3 = m := by omega
    rw [a0, q, e1, e2, f3, f4, f5, hjd, f1, f2]
    omega
  · have q : m / 10 = 1 := by omega
    have a0 : (14 - (m + 3 - 12 * (m / 10))) / 12 = 1 := by omega
    have e1 : 100 * b + d - 4800 + 1 + 4800 - 1 = 100 * b + d := by omega
    have e2 : m + 3 - 12 * 1 + 12 * 1 - 3 = m := by omega
    rw [a0, q, e1, e2, f3, f4, f5, hjd, f1, f2]
    omega

/-- Validity of the date of a Julian Day Number, stated on the intermediate
values of `fromJulianDay`. -/
theorem fromJulianDay_isValid_aux (jd b c d e m : Int)
    (hb : (4 * (jd + 32044) + 3) / 146097 = b)
    (hc : jd + 32044 - 146097 * b / 4 = c)
    (hd : (4 * c + 3) / 1461 = d)
    (he : c - 1461 * d / 4 = e)
    (hm : (5 * e + 2) / 153 = m) :
    isValid ⟨100 * b + d - 4800 + m / 10, m + 3 - 12 * (m / 10),
      e - (153 * m + 2) / 5 + 1⟩ := by
  have f1 : 146097 * b / 4 = 36524 * b + b / 4 := by omega
  have f2 : 1461 * d / 4 = 365 * d + d / 4 := by omega
  have hc0 : 0 ≤ c ∧ c ≤ 36524 := by omega
  have hc1 : c = 36524 → b % 4 = 3 := by omega
  have hd0 : 0 ≤ d ∧ d ≤ 99 := by omega
  have he0 : 0 ≤ e ∧ e ≤ 365 := by omega
  have he1 : e = 365 → d % 4 = 3 := by omega
  have he2 : e = 365 → d = 99 → b % 4 = 3 := by omega
  have hm0 : 0 ≤ m ∧ m ≤ 11 := by omega
  clear hb hc hd he hc1 hc0 f1 f2
  simp only [isValid, daysInMonth]
  by_cases h11 : m = 11
  · subst h11
    norm_num
    by_cases hl : isLeapYear (100 * b + d - 4800 + 1) = true
    · rw [if_pos hl]; omega
    · rw [if_neg hl]
      rw [isLeapYear_iff] at hl
      omega
  · have hm1 : m ≤ 10 := by omega
    clear he1 he2
    obtain ⟨hm2, -⟩ := hm0
    interval_cases m <;> norm_num <;> omega

/-- The date of any Julian Day Number is a valid Gregorian date. -/
theorem fromJulianDay_isValid (jd : Int) : isValid (fromJulianDay jd) :=
  fromJulianDay_isValid_aux jd _ _ _ _ _ rfl rfl rfl rfl rfl

/-- The Julian day of 1 January does not decrease with the year. -/
theorem julianDayOf_jan1_mono (y1 y2 : Int) (h : y1 ≤ y2) :
    julianDayOf y1 1 1 ≤ julianDayOf y2 1 1 := by
  rw [julianDayOf_jan1, julianDayOf_jan1]
  omega

/-- A valid date whose Julian day lies from 1 January of year `g` up to, not
including, 1 January of year `g + 1` is a date of year `g`. -/
theorem year_of_julianDay_range (D : QDate) (hv : isValid D) (g : Int)
    (h1 : julianDayOf g 1 1 ≤ toJulianDay D)
    (h2 : toJulianDay D < julianDayOf (g + 1) 1 1) : D.year = g := by
  obtain ⟨b0, b1⟩ := yday_bounds D hv
  have hn := julianDayOf_next_year D.year
  have hlen : julianDayOf D.year 1 1 + (if isLeapYear D.year then 365 else 364)
      < julianDayOf (D.year + 1) 1 1 := by
    rw [hn]; split_ifs <;> omega
  simp only [toJulianDay] at h1 h2
  by_contra hne
  rcases lt_or_gt_of_ne hne with hlt | hgt
  · have := julianDayOf_jan1_mono (D.year + 1) g (by omega)
    omega
  · have := julianDayOf_jan1_mono (g + 1) D.year (by omega)
    omega

end QDate

/-! ## The forward conversion and the month length rule -/

namespace KCalendarSystemSaka

/-- For a negative dividend the C++ quotient and remainder by 12 are the
negated floored quotient and remainder of the absolute value. -/
theorem tdiv_tmod_of_neg (m : Int) (h : m < 0) :
    Int.tdiv m 12 = -((-m) / 12) ∧ Int.tmod m 12 = -((-m) % 12) := by
  have e1 : Int.tdiv m 12 = -(Int.tdiv (-m) 12) := by
    rw [← Int.neg_tdiv, neg_neg]
  have e2 : Int.tdiv (-m) 12 = (-m) / 12 :=
    Int.tdiv_eq_ediv (by omega) (by norm_num)
  have e3 := Int.tmod_add_tdiv m 12
  constructor <;> omega

/-- For a negative month that is not a multiple of 12, `getMonthLength` leaves
the month negative and returns 30. -/
theorem getMonthLength_of_neg (g m : Int) (h : m < 0) (h12 : m % 12 ≠ 0) :
    getMonthLength g m = 30 := by
  obtain ⟨-, e⟩ := tdiv_tmod_of_neg m h
  have hc : m < 0 ∨ m > 11 := Or.inl h
  have h0 : ¬ Int.tmod m 12 = 0 := by omega
  have h1 : ¬ (1 ≤ Int.tmod m 12) := by omega
  simp [getMonthLength, hc, h0, h1]

/-- The year-start value `start` of `SakaToJD`, in either branch, is day 80
(zero-based) of the Gregorian year `year + 78`. -/
theorem SakaToJD_start (year : Int) :
    (if QDate.isLeapYear (year + 78) then gregorianToJD (year + 78) 3 21
      else gregorianToJD (year + 78) 3 22) = gregorianToJD (year + 78) 1 1 + 80 := by
  simp only [gregorianToJD, QDate.toJulianDay]
  by_cases h : QDate.isLeapYear (year + 78) = true
  · rw [if_pos h, QDate.julianDayOf_march, if_pos h]; omega
  · rw [if_neg h, QDate.julianDayOf_march, if_neg h]; omega

/-- The first day of Saka year `Y` is day 80 (zero-based) of Gregorian year
`Y + 78`. -/
theorem SakaToJD_first_day (Y : Int) :
    SakaToJD Y 1 1 = QDate.julianDayOf (Y + 78) 1 1 + 80 := by
  have h0 := SakaToJD_start Y
  simp only [SakaToJD, get_era_start, SAKA_ERA_START]
  rw [h0]
  simp [gregorianToJD, QDate.toJulianDay]

/-- Day 30 of month 12 of Saka year `Y` is day 79 (zero-based) of Gregorian
year `Y + 79`. -/
theorem SakaToJD_last_day (Y : Int) :
    SakaToJD Y 12 30 = QDate.julianDayOf (Y + 79) 1 1 + 79 := by
  have h0 := SakaToJD_start Y
  have hn := QDate.julianDayOf_next_year (Y + 78)
  have e : Y + 79 = Y + 78 + 1 := by ring
  simp only [SakaToJD, get_era_start, SAKA_ERA_START]
  rw [h0, e, hn]
  norm_num
  simp only [gregorianToJD, QDate.toJulianDay]
  by_cases h : QDate.isLeapYear (Y + 78) = true
  · simp only [h, if_true]; omega
  · simp only [h]; norm_num; omega

/-- C4. Year-start anchor: for every Saka year `y`, `SakaToJD y 1 1` is the
Julian Day Number of Gregorian March 21 of year `y + 78` when `y + 78` is a
Gregorian leap year and of March 22 of year `y + 78` otherwise; in particular
`SakaToJD 1922 1 1` is the Julian Day Number of Gregorian 2000-03-21. -/
theorem C4_year_start_anchor :
    (∀ y : Int,
      SakaToJD y 1 1 =
        if QDate.isLeapYear (y + 78) then QDate.toJulianDay ⟨y + 78, 3, 21⟩
        else QDate.toJulianDay ⟨y + 78, 3, 22⟩) ∧
    SakaToJD 1922 1 1 = QDate.toJulianDay ⟨2000, 3, 21⟩ := by
  refine ⟨fun y => ?_, by decide⟩
  simp [SakaToJD, gregorianToJD, get_era_start, SAKA_ERA_START]

/-- C3. Boundary continuity of the forward conversion: for every Saka year
`Y`, whatever the leap status of `Y + 78` and of `Y + 79`, the first day of Saka
year `Y + 1` is the Julian day right after day 30 of month 12 of Saka year `Y`:
`SakaToJD (Y + 1) 1 1 = SakaToJD Y 12 30 + 1`. -/
theorem C3_boundary_continuity (Y : Int) :
    SakaToJD (Y + 1) 1 1 = SakaToJD Y 12 30 + 1 := by
  have e : Y + 1 + 78 = Y + 79 := by ring
  rw [SakaToJD_first_day, SakaToJD_last_day, e]
  omega

/-- C7. Month length sum: for every year argument `g`, the lengths
`getMonthLength g i` of the twelve months `i = 0..11` add up to 366 when
`g + 78` is a Gregorian leap year and to 365 otherwise. -/
theorem C7_month_length_sum (g : Int) :
    (∑ i in Finset.range 12, getMonthLength g (i : Int)) =
      if QDate.isLeapYear (g + 78) then 366 else 365 := by
  simp only [Finset.sum_range_succ, Finset.sum_range_zero, getMonthLength,
    get_era_start, SAKA_ERA_START]
  by_cases h : QDate.isLeapYear (g + 78) = true
  · simp [h]
  · simp [h]

/-- C8. Month length rule: for every year argument `y` and zero-based month
index `i` in `0..11`, `getMonthLength y i` is 31 when `i` is in `1..5`, 30 when
`i` is in `6..11`, and for `i = 0` it is 31 exactly when `y + 78` is a Gregorian
leap year and 30 otherwise; so `getMonthLength 1999 0 = 30` and
`getMonthLength 1922 0 = 31`. -/
theorem C8_month_length_rule (y i : Int) (h0 : 0 ≤ i) (h11 : i ≤ 11) :
    (1 ≤ i ∧ i ≤ 5 → getMonthLength y i = 31) ∧
    (6 ≤ i ∧ i ≤ 11 → getMonthLength y i = 30) ∧
    (i = 0 → (getMonthLength y i = 31 ↔ QDate.isLeapYear (y + 78) = true) ∧
      (QDate.isLeapYear (y + 78) = false → getMonthLength y i = 30)) ∧
    getMonthLength 1999 0 = 30 ∧ getMonthLength 1922 0 = 31 := by
  have hr : ¬ (i < 0 ∨ i > 11) := by omega
  refine ⟨?_, ?_, ?_, by decide, by decide⟩
  · intro hi
    have hi0 : ¬ i = 0 := by omega
    simp [getMonthLength, hr, hi0, hi.1, hi.2]
  · intro hi
    have hi0 : ¬ i = 0 := by omega
    have hi5 : ¬ i ≤ 5 := by omega
    simp [getMonthLength, hr, hi0, hi5]
  · intro hi
    subst hi
    by_cases h : QDate.isLeapYear (y + 78) = true
    · simp [getMonthLength, get_era_start, SAKA_ERA_START, h]
    · simp [getMonthLength, get_era_start, SAKA_ERA_START, h]

/-- Witness of C8 at Saka year 1922 and month index 0 (Gregorian 2000, a leap
year): the hypotheses hold and the rule gives the month 31 days. -/
theorem C8_month_length_rule_witness :
    ((0 : Int) ≤ 0 ∧ (0 : Int) ≤ 11) ∧
    ((1 ≤ (0 : Int) ∧ (0 : Int) ≤ 5 → getMonthLength 1922 0 = 31) ∧
    (6 ≤ (0 : Int) ∧ (0 : Int) ≤ 11 → getMonthLength 1922 0 = 30) ∧
    ((0 : Int) = 0 →
      (getMonthLength 1922 0 = 31 ↔ QDate.isLeapYear (1922 + 78) = true) ∧
      (QDate.isLeapYear (1922 + 78) = false → getMonthLength 1922 0 = 30)) ∧
    getMonthLength 1999 0 = 30 ∧ getMonthLength 1922 0 = 31) :=
  ⟨by decide, C8_month_length_rule 1922 0 (by decide) (by decide)⟩

/-- C9. The month normalisation of `getMonthLength` truncates: at year argument
0 and month -11 the source returns 30 (it leaves the year at 0 and the month at
-11), whereas the floored normalisation of the claim, year `0 + (-11) / 12 = -1`
and month `(-11) % 12 = 1`, has 31 days; and so it is for every negative month
whose floored remainder is in `1..5`: the source returns 30 and the floored
normalisation has 31 days. -/
theorem C9_negative_month_truncates :
    getMonthLength 0 (-11) = 30 ∧
    (0 + (-11 : Int) / 12 = -1 ∧ (-11 : Int) % 12 = 1) ∧
    getMonthLength (0 + (-11 : Int) / 12) ((-11 : Int) % 12) = 31 ∧
    getMonthLength 0 (-11) ≠
      getMonthLength (0 + (-11 : Int) / 12) ((-11 : Int) % 12) ∧
    (∀ g m : Int, m < 0 → 1 ≤ m % 12 → m % 12 ≤ 5 →
      getMonthLength g m = 30 ∧ getMonthLength (g + m / 12) (m % 12) = 31) := by
  refine ⟨by decide, by decide, by decide, by decide, ?_⟩
  intro g m hm h1 h5
  refine ⟨getMonthLength_of_neg g m hm (by omega), ?_⟩
  have hr : ¬ (m % 12 < 0 ∨ m % 12 > 11) := by omega
  have h0 : ¬ m % 12 = 0 := by omega
  simp [getMonthLength, hr, h0, h1, h5]

end KCalendarSystemSaka

namespace KCalendarSystemIndic

open KCalendarSystemSaka

/-- C10. The `year()` accessor applies the era offset alone: for every date
`D`, valid or not and wherever it falls relative to the Saka new year,
`year D` is the Gregorian year of `D` minus 78. -/
theorem C10_year_is_era_offset (D : QDate) : year D = D.year - 78 := by
  simp [year, KCalendarSystem.year, get_era_start, SAKA_ERA_START]

end KCalendarSystemIndic

namespace KCalendarSystemIndic

open KCalendarSystemSaka

/-- Within `0..11` the month argument of `getMonthLength` is used as it is. -/
theorem getMonthLength_in_range (y i : Int) (h0 : 0 ≤ i) (h11 : i ≤ 11) :
    getMonthLength y i =
      if QDate.isLeapYear (y + 78) = true ∧ i = 0 then 31
      else if 1 ≤ i ∧ i ≤ 5 then 31 else 30 := by
  have hr : ¬ (i < 0 ∨ i > 11) := by omega
  simp [getMonthLength, hr, get_era_start, SAKA_ERA_START]

/-- The day number `ydayOf` of a valid date lies in `0..364`, or `0..365` in a
leap year. -/
theorem ydayOf_bounds (D : QDate) (hv : QDate.isValid D) :
    0 ≤ ydayOf D ∧ ydayOf D ≤ (if QDate.isLeapYear D.year then 365 else 364) :=
  QDate.yday_bounds D hv

/-- Closed form of `month` and `day` in terms of the day number `ydayOf` of the
date in its Gregorian year, for a day number in `0..365`: before day 80 the
date lies in months 10..12 of the Saka year that began in the previous
Gregorian year; from day 80 on it lies in months 1..10 of the Saka year that
begins in this Gregorian year. -/
theorem month_day_closed (D : QDate) (h0 : 0 ≤ ydayOf D) (h1 : ydayOf D ≤ 365) :
    (ydayOf D < 80 →
      month D = (ydayOf D + 100) / 30 + 7 ∧ day D = (ydayOf D + 100) % 30 + 1) ∧
    (80 ≤ ydayOf D → QDate.isLeapYear D.year = true → ydayOf D < 111 →
      month D = 1 ∧ day D = ydayOf D - 79) ∧
    (80 ≤ ydayOf D → QDate.isLeapYear D.year = false → ydayOf D < 110 →
      month D = 1 ∧ day D = ydayOf D - 79) ∧
    (QDate.isLeapYear D.year = true → 111 ≤ ydayOf D → ydayOf D < 266 →
      month D = (ydayOf D - 111) / 31 + 2 ∧ day D = (ydayOf D - 111) % 31 + 1) ∧
    (QDate.isLeapYear D.year = false → 110 ≤ ydayOf D → ydayOf D < 265 →
      month D = (ydayOf D - 110) / 31 + 2 ∧ day D = (ydayOf D - 110) % 31 + 1) ∧
    (QDate.isLeapYear D.year = true → 266 ≤ ydayOf D →
      month D = (ydayOf D - 266) / 30 + 7 ∧ day D = (ydayOf D - 266) % 30 + 1) ∧
    (QDate.isLeapYear D.year = false → 265 ≤ ydayOf D →
      month D = (ydayOf D - 265) / 30 + 7 ∧ day D = (ydayOf D - 265) % 30 + 1) := by
  simp only [month, day, ydayOf, KCalendarSystem.isLeapYear, get_year_start,
    SAKA_YEAR_START] at h0 h1 ⊢
  generalize gregorianToJD D.year D.month D.day - gregorianToJD D.year 1 1 = yd
    at h0 h1 ⊢
  rcases Bool.eq_false_or_eq_true (QDate.isLeapYear (D.year - 1)) with hlp | hlp <;>
    rcases Bool.eq_false_or_eq_true (QDate.isLeapYear D.year) with hl | hl <;>
    simp only [hlp, hl, Bool.false_eq_true, if_true, if_false, reduceCtorEq,
      false_implies, true_implies, implies_true, true_and, and_true] <;>
    refine ⟨?_, ?_, ?_, ?_⟩ <;> intros <;> constructor <;> split_ifs <;>
    simp (disch := omega) only [Int.tdiv_eq_ediv, Int.tmod_eq_emod] at * <;> omega

/-- C2. Month and day range: for every valid Gregorian date `D`, `month D` is in
`1..12` and `day D` is in `1..getMonthLength s (month D - 1)`, where `s` is the
Saka year containing `D`: the Gregorian year of `D` minus 78, and one less
when the zero-based day-of-year of `D` is below 80. -/
theorem C2_month_day_range (D : QDate) (hv : QDate.isValid D) :
    (1 ≤ month D ∧ month D ≤ 12) ∧
    (1 ≤ day D ∧
      day D ≤ getMonthLength
        (if ydayOf D < 80 then D.year - 78 - 1 else D.year - 78) (month D - 1)) := by
  obtain ⟨h0, h1⟩ := ydayOf_bounds D hv
  have h365 : ydayOf D ≤ 365 := by split_ifs at h1 <;> omega
  obtain ⟨c1, c2, c3, c4, c5, c6, c7⟩ := month_day_closed D h0 h365
  by_cases h80 : ydayOf D < 80
  · obtain ⟨hm, hd⟩ := c1 h80
    rw [if_pos h80, getMonthLength_in_range _ _ (by omega) (by omega), hm, hd]
    split_ifs <;> omega
  · have e : D.year - 78 + 78 = D.year := by ring
    rw [if_neg h80]
    rcases Bool.eq_false_or_eq_true (QDate.isLeapYear D.year) with hl | hl
    · simp only [hl, if_true] at h1
      by_cases ha : ydayOf D < 111
      · obtain ⟨hm, hd⟩ := c2 (by omega) hl ha
        rw [getMonthLength_in_range _ _ (by omega) (by omega), e, hm, hd]
        simp only [hl, true_and, Bool.false_eq_true, false_and, if_false]
        split_ifs <;> omega
      · by_cases hb : ydayOf D < 266
        · obtain ⟨hm, hd⟩ := c4 hl (by omega) hb
          rw [getMonthLength_in_range _ _ (by omega) (by omega), e, hm, hd]
          split_ifs <;> omega
        · obtain ⟨hm, hd⟩ := c6 hl (by omega)
          rw [getMonthLength_in_range _ _ (by omega) (by omega), e, hm, hd]
          split_ifs <;> omega
    · simp only [hl, Bool.false_eq_true, if_false] at h1
      by_cases ha : ydayOf D < 110
      · obtain ⟨hm, hd⟩ := c3 (by omega) hl ha
        rw [getMonthLength_in_range _ _ (by omega) (by omega), e, hm, hd]
        simp only [hl, true_and, Bool.false_eq_true, false_and, if_false]
        split_ifs <;> omega
      · by_cases hb : ydayOf D < 265
        · obtain ⟨hm, hd⟩ := c5 hl (by omega) hb
          rw [getMonthLength_in_range _ _ (by omega) (by omega), e, hm, hd]
          split_ifs <;> omega
        · obtain ⟨hm, hd⟩ := c7 hl (by omega)
          rw [getMonthLength_in_range _ _ (by omega) (by omega), e, hm, hd]
          split_ifs <;> omega

/-- Witness of C2 at the valid Gregorian date 2000-03-20 (day-of-year 79, Saka
year 1921): month 12 and day 30, within the 30 days of month index 11. -/
theorem C2_month_day_range_witness :
    QDate.isValid ⟨2000, 3, 20⟩ ∧
    (1 ≤ month ⟨2000, 3, 20⟩ ∧ month ⟨2000, 3, 20⟩ ≤ 12) ∧
    (1 ≤ day ⟨2000, 3, 20⟩ ∧
      day ⟨2000, 3, 20⟩ ≤ getMonthLength
        (if ydayOf ⟨2000, 3, 20⟩ < 80 then (2000 : Int) - 78 - 1 else 2000 - 78)
        (month ⟨2000, 3, 20⟩ - 1)) :=
  ⟨by decide, C2_month_day_range ⟨2000, 3, 20⟩ (by decide)⟩

/-- C5. Saka new year in the inverse conversion: for every Gregorian year `g`,
the date of zero-based day-of-year 80 (March 21 when `g` is a leap year, March
22 otherwise) is a valid date with `year = g - 78`, `month = 1` and `day = 1`;
in particular Gregorian 2000-03-21 is Saka year 1922, month 1, day 1. -/
theorem C5_saka_new_year :
    (∀ g : Int,
      QDate.isValid (if QDate.isLeapYear g then ⟨g, 3, 21⟩ else ⟨g, 3, 22⟩) ∧
      ydayOf (if QDate.isLeapYear g then ⟨g, 3, 21⟩ else ⟨g, 3, 22⟩) = 80 ∧
      year (if QDate.isLeapYear g then ⟨g, 3, 21⟩ else ⟨g, 3, 22⟩) = g - 78 ∧
      month (if QDate.isLeapYear g then ⟨g, 3, 21⟩ else ⟨g, 3, 22⟩) = 1 ∧
      day (if QDate.isLeapYear g then ⟨g, 3, 21⟩ else ⟨g, 3, 22⟩) = 1) ∧
    (year ⟨2000, 3, 21⟩ = 1922 ∧ month ⟨2000, 3, 21⟩ = 1 ∧
      day ⟨2000, 3, 21⟩ = 1) := by
  refine ⟨fun g => ?_, by decide⟩
  rcases Bool.eq_false_or_eq_true (QDate.isLeapYear g) with hl | hl
  · simp only [hl, if_true]
    have hy : ydayOf ⟨g, 3, 21⟩ = 80 := by
      simp only [ydayOf, gregorianToJD, QDate.toJulianDay]
      rw [QDate.julianDayOf_march, if_pos hl]; omega
    obtain ⟨-, c2, -⟩ := month_day_closed ⟨g, 3, 21⟩ (by omega) (by omega)
    obtain ⟨hm, hd⟩ := c2 (by omega) hl (by omega)
    refine ⟨?_, hy, ?_, hm, by omega⟩
    · simp [QDate.isValid, QDate.daysInMonth]
    · simp [year, KCalendarSystem.year, get_era_start, SAKA_ERA_START]
  · simp only [hl, Bool.false_eq_true, if_false]
    have hy : ydayOf ⟨g, 3, 22⟩ = 80 := by
      simp only [ydayOf, gregorianToJD, QDate.toJulianDay]
      rw [QDate.julianDayOf_march]
      simp only [hl, Bool.false_eq_true, if_false]; omega
    obtain ⟨-, -, c3, -⟩ := month_day_closed ⟨g, 3, 22⟩ (by omega) (by omega)
    obtain ⟨hm, hd⟩ := c3 (by omega) hl (by omega)
    refine ⟨?_, hy, ?_, hm, by omega⟩
    · simp [QDate.isValid, QDate.daysInMonth]
    · simp [year, KCalendarSystem.year, get_era_start, SAKA_ERA_START]

/-- C6. The year reported for a date in the tail of the previous Saka year is
not the previous Saka year: `year D` never equals the Gregorian year minus 79,
and for the valid date Gregorian 2000-03-20 (day-of-year 79, below 80) the
code reports year 1922 with month 12 and day 30, although the local `sakaYear`
of `month()` and `day()` stands at 1921 there. -/
theorem C6_tail_year_not_previous :
    (∀ D : QDate, year D ≠ D.year - 79) ∧
    QDate.isValid ⟨2000, 3, 20⟩ ∧ ydayOf ⟨2000, 3, 20⟩ = 79 ∧
    year ⟨2000, 3, 20⟩ = 1922 ∧ month ⟨2000, 3, 20⟩ = 12 ∧
    day ⟨2000, 3, 20⟩ = 30 ∧ sakaYearOf ⟨2000, 3, 20⟩ = 1921 := by
  refine ⟨fun D => ?_, by decide, by decide, by decide, by decide, by decide,
    by decide⟩
  simp only [year, KCalendarSystem.year, get_era_start, SAKA_ERA_START]
  omega

/-- C1. The round trip loses the year in the tail of a Saka year: the valid
Saka date year 1921, month 10, day 11 has the Julian Day Number of Gregorian
2000-01-01, and read back from that date the month is 10 and the day is 11 but
`year` is 1922, not 1921; and in every Saka year `y` the valid Saka date
`(y, 12, 30)` reads back with `year = y + 1`. -/
theorem C1_round_trip_year_differs :
    ((1 ≤ (11 : Int) ∧ (11 : Int) ≤ getMonthLength 1921 (10 - 1)) ∧
      QDate.fromJulianDay (SakaToJD 1921 10 11) = ⟨2000, 1, 1⟩ ∧
      QDate.isValid ⟨2000, 1, 1⟩ ∧
      QDate.toJulianDay ⟨2000, 1, 1⟩ = SakaToJD 1921 10 11 ∧
      month ⟨2000, 1, 1⟩ = 10 ∧ day ⟨2000, 1, 1⟩ = 11 ∧
      year ⟨2000, 1, 1⟩ = 1922 ∧ year ⟨2000, 1, 1⟩ ≠ 1921) ∧
    (∀ y : Int, (1 ≤ (30 : Int) ∧ (30 : Int) ≤ getMonthLength y (12 - 1)) ∧
      year (QDate.fromJulianDay (SakaToJD y 12 30)) = y + 1) := by
  refine ⟨by decide, fun y => ⟨?_, ?_⟩⟩
  · rw [getMonthLength_in_range _ _ (by norm_num) (by norm_num)]
    norm_num
  · have hv := QDate.fromJulianDay_isValid (SakaToJD y 12 30)
    have hj := QDate.toJulianDay_fromJulianDay (SakaToJD y 12 30)
    have hl := SakaToJD_last_day y
    have hn := QDate.julianDayOf_next_year (y + 79)
    have hy := QDate.year_of_julianDay_range _ hv (y + 79)
      (by rw [hj, hl]; omega) (by rw [hj, hl, hn]; split_ifs <;> omega)
    simp only [year, KCalendarSystem.year, get_era_start, SAKA_ERA_START, hy]
    omega

end KCalendarSystemIndic

/-! ## The month length rule against the forward conversion -/

namespace KCalendarSystemSaka

/-- The result of `getMonthLength` is 30 or 31 on every input. -/
theorem getMonthLength_30_or_31 (g month : Int) :
    getMonthLength g month = 30 ∨ getMonthLength g month = 31 := by
  simp only [getMonthLength]
  split_ifs <;> simp

/-- C18. Forward conversion agrees with the month length rule: for every Saka
year `y`, month `m` in `1..12` and integer day `d`, `SakaToJD y m d` is
`SakaToJD y 1 1` plus the lengths `getMonthLength y i` of the months
`i = 0..m-2` before month `m`, plus `d - 1`. -/
theorem C18_forward_agrees_with_month_lengths (y m d : Int)
    (h1 : 1 ≤ m) (h12 : m ≤ 12) :
    SakaToJD y m d =
      SakaToJD y 1 1 + (∑ i in Finset.range (m - 1).toNat, getMonthLength y (i : Int))
        + (d - 1) := by
  interval_cases m <;>
    simp [SakaToJD, Finset.sum_range_succ, getMonthLength, get_era_start,
      SAKA_ERA_START] <;>
    split_ifs <;> omega

/-- Witness of C18 at Saka year 1922, month 8, day 15: the seven months before
month 8 have 31 + 5 * 31 + 30 = 216 days. -/
theorem C18_forward_agrees_with_month_lengths_witness :
    ((1 : Int) ≤ 8 ∧ (8 : Int) ≤ 12) ∧
    SakaToJD 1922 8 15 =
      SakaToJD 1922 1 1 +
        (∑ i in Finset.range ((8 : Int) - 1).toNat, getMonthLength 1922 (i : Int))
        + (15 - 1) :=
  ⟨by decide,
    C18_forward_agrees_with_month_lengths 1922 8 15 (by decide) (by decide)⟩

/-- C19. Month length for non-negative out-of-range months: for every year
argument `g` and every `month ≥ 0`, `getMonthLength g month` equals
`getMonthLength (g + month / 12) (month % 12)` (for a non-negative month the
C++ quotient and remainder are the floored ones), and on all integer inputs,
negative months included, the result is 30 or 31. -/
theorem C19_nonneg_month_fold :
    (∀ g month : Int, 0 ≤ month →
      (Int.tdiv month 12 = month / 12 ∧ Int.tmod month 12 = month % 12) ∧
      getMonthLength g month = getMonthLength (g + month / 12) (month % 12)) ∧
    (∀ g month : Int, getMonthLength g month = 30 ∨ getMonthLength g month = 31) := by
  refine ⟨fun g month h0 => ?_, getMonthLength_30_or_31⟩
  have ed : Int.tdiv month 12 = month / 12 := Int.tdiv_eq_ediv h0 (by norm_num)
  have em : Int.tmod month 12 = month % 12 := Int.tmod_eq_emod h0 (by norm_num)
  refine ⟨⟨ed, em⟩, ?_⟩
  by_cases h11 : month ≤ 11
  · have q : month / 12 = 0 := by omega
    have r : month % 12 = month := by omega
    rw [q, r, add_zero]
  · have hc : month < 0 ∨ month > 11 := by omega
    have hr : ¬ (month % 12 < 0 ∨ month % 12 > 11) := by omega
    simp only [getMonthLength, hc, hr, if_true, if_false, ed, em]

end KCalendarSystemSaka

/-! ## The primitives exposed to the calendar framework -/

namespace QDate

/-- The date read back from the Julian day of a valid date has the same
year. -/
theorem fromJulianDay_toJulianDay_year (D : QDate) (hv : isValid D) :
    (fromJulianDay (toJulianDay D)).year = D.year := by
  obtain ⟨b0, b1⟩ := yday_bounds D hv
  have hn := julianDayOf_next_year D.year
  have hj := toJulianDay_fromJulianDay (toJulianDay D)
  refine year_of_julianDay_range _ (fromJulianDay_isValid _) D.year ?_ ?_
  · rw [hj]; simp only [toJulianDay]; omega
  · rw [hj, hn]; simp only [toJulianDay]; split_ifs at b1 ⊢ <;> omega

end QDate

namespace KCalendarSystemSaka

/-- Closed form of `SakaToJD`: day 80 of Gregorian year `y + 78`, plus the days
of the months before month `m` as the source adds them up, plus `d - 1`. -/
theorem SakaToJD_closed (y m d : Int) :
    SakaToJD y m d =
      QDate.julianDayOf (y + 78) 1 1 + 80 +
        (if m = 1 then d - 1
        else (if QDate.isLeapYear (y + 78) then 31 else 30) +
          (if m - 2 < 5 then m - 2 else 5) * 31 +
          (if m ≥ 8 then (m - 7) * 30 else 0) + (d - 1)) := by
  have h0 := SakaToJD_start y
  simp only [SakaToJD, get_era_start, SAKA_ERA_START]
  rw [h0]
  simp only [gregorianToJD, QDate.toJulianDay]
  split_ifs <;> omega

end KCalendarSystemSaka

namespace KCalendarSystemIndic

open KCalendarSystemSaka

/-- The method `month()` is its month index followed by the one-based
conversion. -/
theorem month_eq_index (D : QDate) :
    month D = if sakaMonthIndex D = 12 then 1 else sakaMonthIndex D + 1 := rfl

/-- For a day number in `0..365` the month index of `month()` lies in
`0..11`. -/
theorem sakaMonthIndex_range (D : QDate) (h0 : 0 ≤ ydayOf D)
    (h1 : ydayOf D ≤ 365) : 0 ≤ sakaMonthIndex D ∧ sakaMonthIndex D ≤ 11 := by
  simp only [sakaMonthIndex, ydayOf, KCalendarSystem.isLeapYear, get_year_start,
    SAKA_YEAR_START] at h0 h1 ⊢
  generalize gregorianToJD D.year D.month D.day - gregorianToJD D.year 1 1 = yd
    at h0 h1 ⊢
  rcases Bool.eq_false_or_eq_true (QDate.isLeapYear (D.year - 1)) with hlp | hlp <;>
    rcases Bool.eq_false_or_eq_true (QDate.isLeapYear D.year) with hl | hl <;>
    simp only [hlp, hl, Bool.false_eq_true, if_true, if_false] <;>
    split_ifs <;>
    (try simp (disch := omega) only [Int.tdiv_eq_ediv]) <;> omega

/-- C14. Unreachable wrap branch: for every valid Gregorian date the zero-based
month index that `month()` holds before the one-based conversion lies in
`0..11`; it is never 12, so the wrap-to-1 branch is not taken and `month()`
is the index plus one. -/
theorem C14_wrap_branch_unreachable (D : QDate) (hv : QDate.isValid D) :
    (0 ≤ sakaMonthIndex D ∧ sakaMonthIndex D ≤ 11) ∧
    sakaMonthIndex D ≠ 12 ∧ month D = sakaMonthIndex D + 1 := by
  obtain ⟨h0, h1⟩ := ydayOf_bounds D hv
  have h365 : ydayOf D ≤ 365 := by split_ifs at h1 <;> omega
  obtain ⟨a, b⟩ := sakaMonthIndex_range D h0 h365
  have hne : sakaMonthIndex D ≠ 12 := by omega
  exact ⟨⟨a, b⟩, hne, by rw [month_eq_index, if_neg hne]⟩

/-- Witness of C14 at the valid Gregorian date 2000-03-20, the last day of a
Saka year: the month index is 11. -/
theorem C14_wrap_branch_unreachable_witness :
    QDate.isValid ⟨2000, 3, 20⟩ ∧
    ((0 ≤ sakaMonthIndex ⟨2000, 3, 20⟩ ∧ sakaMonthIndex ⟨2000, 3, 20⟩ ≤ 11) ∧
    sakaMonthIndex ⟨2000, 3, 20⟩ ≠ 12 ∧
    month ⟨2000, 3, 20⟩ = sakaMonthIndex ⟨2000, 3, 20⟩ + 1) :=
  ⟨by decide, C14_wrap_branch_unreachable ⟨2000, 3, 20⟩ (by decide)⟩

/-- C15. The date of `latestValidDate()` is not the last day of year 9999 of
this calendar: Julian Day 5373484 is Gregorian 9999-12-31, for which the code
gives `year = 9921`, `month = 10` and `day = 10`, not 9999, 12 and 31; the last
day of Saka year 9999, month 12 day 30, has Julian Day 5402054. -/
theorem C15_latest_valid_date_is_gregorian :
    latestValidDate = ⟨9999, 12, 31⟩ ∧
    QDate.toJulianDay latestValidDate = 5373484 ∧
    year latestValidDate = 9921 ∧ month latestValidDate = 10 ∧
    day latestValidDate = 10 ∧
    ¬ (year latestValidDate = 9999 ∧ month latestValidDate = 12 ∧
      day latestValidDate = 31) ∧
    getMonthLength 9999 (12 - 1) = 30 ∧ SakaToJD 9999 12 30 = 5402054 := by
  decide

end KCalendarSystemIndic

namespace KCalendarSystemIndic

open KCalendarSystemSaka

/-- The method `isValid(year, month, day)` accepts exactly the valid Gregorian
triples of a year up to 9999. -/
theorem isValid_iff (y m d : Int) :
    isValid y m d = true ↔ y ≤ 9999 ∧ QDate.isValid ⟨y, m, d⟩ := by
  by_cases h : y ≤ 9999 <;> simp [isValid, h]

/-- The method `dateToJulianDay` succeeds exactly on the valid Gregorian
triples, with the Gregorian Julian day of the triple. -/
theorem dateToJulianDay_eq_some (y m d jd : Int) :
    dateToJulianDay y m d = some jd ↔
      QDate.isValid ⟨y, m, d⟩ ∧ jd = QDate.julianDayOf y m d := by
  by_cases h : QDate.isValid ⟨y, m, d⟩
  · simp [dateToJulianDay, QDate.setDate, h, QDate.toJulianDay, eq_comm]
  · simp [dateToJulianDay, QDate.setDate, h]

/-- C13. The method `isValid(year, month, day)` checks the triple as a
Gregorian date, not against the Saka month lengths: day 31 of Saka month 2,
which exists in every Saka year (`getMonthLength y 1 = 31`), is refused in
every year, and day 31 of month 1 of Saka year 1923, a month of 30 days, is
accepted; the triple that `year`, `month` and `day` read from the valid date
Gregorian 2000-05-21 (month 2, day 31) is refused; `isValid` holds exactly for
a year up to 9999 with a valid Gregorian triple, so it is false for every year
above 9999. -/
theorem C13_isValid_checks_gregorian :
    ((1 ≤ (31 : Int) ∧ (31 : Int) ≤ getMonthLength 1922 (2 - 1)) ∧
      isValid 1922 2 31 = false) ∧
    (∀ y : Int, getMonthLength y (2 - 1) = 31 ∧ isValid y 2 31 = false) ∧
    (getMonthLength 1923 (1 - 1) = 30 ∧ isValid 1923 1 31 = true) ∧
    (QDate.isValid ⟨2000, 5, 21⟩ ∧ month ⟨2000, 5, 21⟩ = 2 ∧
      day ⟨2000, 5, 21⟩ = 31 ∧
      isValid (year ⟨2000, 5, 21⟩) (month ⟨2000, 5, 21⟩) (day ⟨2000, 5, 21⟩)
        = false) ∧
    (∀ y m d : Int, isValid y m d = true ↔ y ≤ 9999 ∧ QDate.isValid ⟨y, m, d⟩) ∧
    (∀ y m d : Int, 9999 < y → isValid y m d = false) := by
  refine ⟨by decide, fun y => ⟨?_, ?_⟩, by decide, by decide, isValid_iff, ?_⟩
  · rw [getMonthLength_in_range _ _ (by norm_num) (by norm_num)]
    norm_num
  · have hq : ¬ QDate.isValid ⟨y, 2, 31⟩ := by
      simp only [QDate.isValid, QDate.daysInMonth]
      split_ifs <;> omega
    have := isValid_iff y 2 31
    cases hb : isValid y 2 31
    · rfl
    · exact absurd (this.mp hb).2 hq
  · intro y m d hy
    have hn : ¬ y ≤ 9999 := by omega
    simp [isValid, hn]

/-- C11. The method `dateToJulianDay` is the Gregorian conversion of the triple,
not the Saka forward conversion: for the valid Saka date (1922, 1, 1) it gives
Julian Day 2423056 (Gregorian 1922-01-01) where `SakaToJD` gives 2451625; for
the valid Saka date (1922, 2, 31) it fails; and whenever it succeeds its
result is the Gregorian Julian day of the triple, which for a month and day
from 1 on is below `SakaToJD` of the triple; and given the year, month and day
that this class reads from a valid date, it never returns the Julian day of
that date, but an earlier one. -/
theorem C11_dateToJulianDay_is_gregorian :
    ((1 ≤ (1 : Int) ∧ (1 : Int) ≤ getMonthLength 1922 (1 - 1)) ∧
      dateToJulianDay 1922 1 1 = some 2423056 ∧ SakaToJD 1922 1 1 = 2451625) ∧
    ((1 ≤ (31 : Int) ∧ (31 : Int) ≤ getMonthLength 1922 (2 - 1)) ∧
      dateToJulianDay 1922 2 31 = none) ∧
    (∀ y m d jd : Int, dateToJulianDay y m d = some jd →
      jd = QDate.julianDayOf y m d ∧ (1 ≤ m → 1 ≤ d → jd < SakaToJD y m d)) ∧
    (∀ (D : QDate) (jd : Int), QDate.isValid D →
      dateToJulianDay (year D) (month D) (day D) = some jd →
        jd < QDate.toJulianDay D) := by
  refine ⟨by decide, by decide, ?_, ?_⟩
  rotate_left
  · intro D jd hD h
    obtain ⟨hv, hj⟩ := (dateToJulianDay_eq_some _ _ _ jd).mp h
    obtain ⟨-, b1⟩ := QDate.yday_bounds ⟨year D, month D, day D⟩ hv
    obtain ⟨a0, -⟩ := QDate.yday_bounds D hD
    simp only at b1
    have ey : year D = D.year - 78 := by
      simp [year, KCalendarSystem.year, get_era_start, SAKA_ERA_START]
    rw [ey] at b1 hj
    have hn := QDate.julianDayOf_next_year (D.year - 78)
    have hmono := QDate.julianDayOf_jan1_mono (D.year - 78 + 1) D.year (by omega)
    simp only [QDate.toJulianDay]
    split_ifs at b1 hn <;> omega
  intro y m d jd h
  obtain ⟨hv, hj⟩ := (dateToJulianDay_eq_some y m d jd).mp h
  refine ⟨hj, fun hm hd => ?_⟩
  obtain ⟨-, b1⟩ := QDate.yday_bounds ⟨y, m, d⟩ hv
  simp only at b1
  have hn := QDate.julianDayOf_next_year y
  have hmono := QDate.julianDayOf_jan1_mono (y + 1) (y + 78) (by omega)
  rw [SakaToJD_closed, hj]
  split_ifs at b1 hn ⊢ <;> omega

/-- The year of the date that `setYMD` builds is the year it was given. -/
theorem setYMD_year (D : QDate) (y m d : Int)
    (h : (setYMD D y m d).1 = true) : (setYMD D y m d).2.year = y := by
  simp only [setYMD, KCalendarSystem.setDate] at h ⊢
  by_cases hv : isValid y m d = true
  · obtain ⟨-, hq⟩ := (isValid_iff y m d).mp hv
    have hj : dateToJulianDay y m d = some (QDate.julianDayOf y m d) :=
      (dateToJulianDay_eq_some y m d _).mpr ⟨hq, rfl⟩
    simp only [hv, hj, if_true]
    exact QDate.fromJulianDay_toJulianDay_year ⟨y, m, d⟩ hq
  · simp [hv] at h

/-- C12. The method `addYears` does not keep the Saka date: for the valid date
Gregorian 2000-03-20 (`year = 1922`, `month = 12`, `day = 30`) and `n = 0` the
construction succeeds and yields Gregorian 1922-12-30, another date, whose
`year` is 1844, `month` 10 and `day` 9; and whenever the construction succeeds,
`year (addYears D n)` is `year D + n - 78`, not `year D + n`. -/
theorem C12_addYears_shifts_by_era :
    (QDate.isValid ⟨2000, 3, 20⟩ ∧ year ⟨2000, 3, 20⟩ = 1922 ∧
      month ⟨2000, 3, 20⟩ = 12 ∧ day ⟨2000, 3, 20⟩ = 30) ∧
    (setYMD ⟨2000, 3, 20⟩ (1922 + 0) 12 30 = (true, ⟨1922, 12, 30⟩) ∧
      addYears ⟨2000, 3, 20⟩ 0 = ⟨1922, 12, 30⟩ ∧
      addYears ⟨2000, 3, 20⟩ 0 ≠ ⟨2000, 3, 20⟩) ∧
    (year (addYears ⟨2000, 3, 20⟩ 0) = 1844 ∧
      month (addYears ⟨2000, 3, 20⟩ 0) = 10 ∧
      day (addYears ⟨2000, 3, 20⟩ 0) = 9) ∧
    (∀ (D : QDate) (n : Int),
      (setYMD D (year D + n) (month D) (day D)).1 = true →
        year (addYears D n) = year D + n - 78 ∧
        year (addYears D n) ≠ year D + n) := by
  refine ⟨by decide, by decide, by decide, ?_⟩
  intro D n h
  have hy := setYMD_year D _ _ _ h
  have e : year (addYears D n) = (addYears D n).year - 78 := by
    simp [year, KCalendarSystem.year, get_era_start, SAKA_ERA_START]
  have e2 : (addYears D n).year = year D + n := hy
  omega

end KCalendarSystemIndic

/-! ## The forward and the inverse conversion against each other -/

namespace KCalendarSystemIndic

open KCalendarSystemSaka

/-- The local `sakaYear` of `month()` and `day()` in terms of the Gregorian
year. -/
theorem sakaYearOf_eq (D : QDate) :
    sakaYearOf D = if ydayOf D < 80 then D.year - 78 - 1 else D.year - 78 := by
  simp [sakaYearOf, year, KCalendarSystem.year, get_year_start, SAKA_YEAR_START,
    get_era_start, SAKA_ERA_START]

/-- A valid Gregorian date whose Julian day is `SakaToJD y m d`, for a valid
Saka date `(y, m, d)`, reads back as month `m` and day `d`, and the local
`sakaYear` of `month()` and `day()` stands at `y`. -/
theorem month_day_of_SakaToJD (D : QDate) (hv : QDate.isValid D) (y m d : Int)
    (hm1 : 1 ≤ m) (hm12 : m ≤ 12) (hd1 : 1 ≤ d)
    (hd : d ≤ getMonthLength y (m - 1))
    (h : QDate.toJulianDay D = SakaToJD y m d) :
    month D = m ∧ day D = d ∧ sakaYearOf D = y := by
  rw [getMonthLength_in_range _ _ (by omega) (by omega)] at hd
  rw [SakaToJD_closed] at h
  have hyd : ydayOf D = QDate.toJulianDay D - QDate.julianDayOf D.year 1 1 := rfl
  obtain ⟨b0, b1⟩ := ydayOf_bounds D hv
  have h365 : ydayOf D ≤ 365 := by split_ifs at b1 <;> omega
  obtain ⟨c1, c2, c3, c4, c5, c6, c7⟩ := month_day_closed D b0 h365
  have hn := QDate.julianDayOf_next_year (y + 78)
  have hn2 := QDate.julianDayOf_next_year (y + 79)
  have e79 : y + 78 + 1 = y + 79 := by ring
  rw [e79] at hn
  have hn2b : QDate.julianDayOf (y + 79) 1 1 + 365
      ≤ QDate.julianDayOf (y + 79 + 1) 1 1 := by
    rw [hn2]; split_ifs <;> omega
  have hsy := sakaYearOf_eq D
  by_cases hA : QDate.toJulianDay D < QDate.julianDayOf (y + 79) 1 1
  · have hY : D.year = y + 78 :=
      QDate.year_of_julianDay_range D hv (y + 78)
        (by rw [h]; split_ifs <;> omega) (by rw [e79]; exact hA)
    rw [hY] at hyd c2 c3 c4 c5 c6 c7 hsy
    have h80 : ¬ ydayOf D < 80 := by split_ifs at h <;> omega
    rw [if_neg h80] at hsy
    rcases Bool.eq_false_or_eq_true (QDate.isLeapYear (y + 78)) with hl | hl
    · have c2' := fun a b => c2 a hl b
      have c4' := c4 hl
      have c6' := c6 hl
      simp only [hl, if_true, true_and] at h hd
      split_ifs at h hd <;> omega
    · have c3' := fun a b => c3 a hl b
      have c5' := c5 hl
      have c7' := c7 hl
      simp only [hl, Bool.false_eq_true, if_false, false_and] at h hd
      split_ifs at h hd <;> omega
  · have hY : D.year = y + 79 :=
      QDate.year_of_julianDay_range D hv (y + 79) (by omega)
        (by
          rw [h]
          rcases Bool.eq_false_or_eq_true (QDate.isLeapYear (y + 78)) with hl | hl
          · simp only [hl, if_true, true_and] at hn hd ⊢
            split_ifs at hd ⊢ <;> omega
          · simp only [hl, Bool.false_eq_true, if_false, false_and] at hn hd ⊢
            split_ifs at hd ⊢ <;> omega)
    rw [hY] at hyd hsy
    have h80 : ydayOf D < 80 := by
      rcases Bool.eq_false_or_eq_true (QDate.isLeapYear (y + 78)) with hl | hl
      · simp only [hl, if_true, true_and] at hn hd h
        split_ifs at hd h <;> omega
      · simp only [hl, Bool.false_eq_true, if_false, false_and] at hn hd h
        split_ifs at hd h <;> omega
    rw [if_pos h80] at hsy
    obtain ⟨hmo, hda⟩ := c1 h80
    rcases Bool.eq_false_or_eq_true (QDate.isLeapYear (y + 78)) with hl | hl
    · simp only [hl, if_true, true_and] at hn hd h
      split_ifs at hd h <;> omega
    · simp only [hl, Bool.false_eq_true, if_false, false_and] at hn hd h
      split_ifs at hd h <;> omega

end KCalendarSystemIndic

namespace KCalendarSystemIndic

open KCalendarSystemSaka

/-- C16. Month/day round trip: for every Saka year `y`, month `m` in `1..12`
and day `d` in `1..getMonthLength y (m - 1)`, the Gregorian date whose Julian
Day Number is `SakaToJD y m d` (it exists: `QDate.fromJulianDay` gives it, and
it is valid) reads back with `month = m` and `day = d`; the same holds for any
valid Gregorian date with that Julian Day Number. -/
theorem C16_month_day_round_trip (y m d : Int) (hm1 : 1 ≤ m) (hm12 : m ≤ 12)
    (hd1 : 1 ≤ d) (hd : d ≤ getMonthLength y (m - 1)) :
    (QDate.isValid (QDate.fromJulianDay (SakaToJD y m d)) ∧
      QDate.toJulianDay (QDate.fromJulianDay (SakaToJD y m d)) = SakaToJD y m d) ∧
    (month (QDate.fromJulianDay (SakaToJD y m d)) = m ∧
      day (QDate.fromJulianDay (SakaToJD y m d)) = d) ∧
    (∀ D : QDate, QDate.isValid D → QDate.toJulianDay D = SakaToJD y m d →
      month D = m ∧ day D = d) := by
  have hv := QDate.fromJulianDay_isValid (SakaToJD y m d)
  have hj := QDate.toJulianDay_fromJulianDay (SakaToJD y m d)
  refine ⟨⟨hv, hj⟩, ?_, ?_⟩
  · obtain ⟨a, b, -⟩ := month_day_of_SakaToJD _ hv y m d hm1 hm12 hd1 hd hj
    exact ⟨a, b⟩
  · intro D hD hJ
    obtain ⟨a, b, -⟩ := month_day_of_SakaToJD D hD y m d hm1 hm12 hd1 hd hJ
    exact ⟨a, b⟩

/-- Witness of C16 at the Saka date year 1921, month 12, day 30 (Gregorian
2000-03-20). -/
theorem C16_month_day_round_trip_witness :
    ((1 : Int) ≤ 12 ∧ (12 : Int) ≤ 12 ∧ (1 : Int) ≤ 30 ∧
      (30 : Int) ≤ getMonthLength 1921 (12 - 1)) ∧
    ((QDate.isValid (QDate.fromJulianDay (SakaToJD 1921 12 30)) ∧
      QDate.toJulianDay (QDate.fromJulianDay (SakaToJD 1921 12 30))
        = SakaToJD 1921 12 30) ∧
    (month (QDate.fromJulianDay (SakaToJD 1921 12 30)) = 12 ∧
      day (QDate.fromJulianDay (SakaToJD 1921 12 30)) = 30) ∧
    (∀ D : QDate, QDate.isValid D → QDate.toJulianDay D = SakaToJD 1921 12 30 →
      month D = 12 ∧ day D = 30)) :=
  ⟨by decide,
    C16_month_day_round_trip 1921 12 30 (by decide) (by decide) (by decide)
      (by decide)⟩

/-- C17. Decompose-then-recompose: for every valid Gregorian date `D` of
Gregorian year `g`, with `s = g - 78` when the zero-based day-of-year of `D` is
at least 80 and `s = g - 79` otherwise, `SakaToJD s (month D) (day D)` is the
Julian Day Number of `D`. -/
theorem C17_decompose_recompose (D : QDate) (hv : QDate.isValid D) :
    SakaToJD (if ydayOf D < 80 then D.year - 79 else D.year - 78)
      (month D) (day D) = QDate.toJulianDay D := by
  have hyd : ydayOf D = QDate.toJulianDay D - QDate.julianDayOf D.year 1 1 := rfl
  obtain ⟨b0, b1⟩ := ydayOf_bounds D hv
  have h365 : ydayOf D ≤ 365 := by split_ifs at b1 <;> omega
  obtain ⟨c1, c2, c3, c4, c5, c6, c7⟩ := month_day_closed D b0 h365
  rw [SakaToJD_closed]
  by_cases h80 : ydayOf D < 80
  · obtain ⟨hmo, hda⟩ := c1 h80
    have e : D.year - 79 + 78 = D.year - 1 := by ring
    have e2 : D.year - 1 + 1 = D.year := by ring
    have hn := QDate.julianDayOf_next_year (D.year - 1)
    rw [e2] at hn
    rw [if_pos h80, e, hmo, hda]
    split_ifs at hn ⊢ <;> omega
  · have e : D.year - 78 + 78 = D.year := by ring
    rw [if_neg h80, e]
    rcases Bool.eq_false_or_eq_true (QDate.isLeapYear D.year) with hl | hl
    · have c2' := fun a b => c2 a hl b
      have c4' := c4 hl
      have c6' := c6 hl
      simp only [hl, if_true] at b1 ⊢
      by_cases ha : ydayOf D < 111
      · obtain ⟨hmo, hda⟩ := c2' (by omega) ha
        rw [hmo, hda]; split_ifs <;> omega
      · by_cases hb : ydayOf D < 266
        · obtain ⟨hmo, hda⟩ := c4' (by omega) hb
          rw [hmo, hda]; split_ifs <;> omega
        · obtain ⟨hmo, hda⟩ := c6' (by omega)
          rw [hmo, hda]; split_ifs <;> omega
    · have c3' := fun a b => c3 a hl b
      have c5' := c5 hl
      have c7' := c7 hl
      simp only [hl, Bool.false_eq_true, if_false] at b1 ⊢
      by_cases ha : ydayOf D < 110
      · obtain ⟨hmo, hda⟩ := c3' (by omega) ha
        rw [hmo, hda]; split_ifs <;> omega
      · by_cases hb : ydayOf D < 265
        · obtain ⟨hmo, hda⟩ := c5' (by omega) hb
          rw [hmo, hda]; split_ifs <;> omega
        · obtain ⟨hmo, hda⟩ := c7' (by omega)
          rw [hmo, hda]; split_ifs <;> omega

/-- Witness of C17 at the valid Gregorian date 2000-03-20 (day-of-year 79):
`SakaToJD 1921 12 30` is its Julian Day Number. -/
theorem C17_decompose_recompose_witness :
    QDate.isValid ⟨2000, 3, 20⟩ ∧
    SakaToJD (if ydayOf ⟨2000, 3, 20⟩ < 80 then (2000 : Int) - 79 else 2000 - 78)
      (month ⟨2000, 3, 20⟩) (day ⟨2000, 3, 20⟩)
      = QDate.toJulianDay ⟨2000, 3, 20⟩ :=
  ⟨by decide, C17_decompose_recompose ⟨2000, 3, 20⟩ (by decide)⟩

end KCalendarSystemIndic
